import Mathlib

/-!
Verification of the task-server repository (src/server.py): an in-memory
task store with id assignment, file persistence, and a small HTTP
routing layer.  The Python dictionaries produced by json.load / json.dumps
are modelled by an inductive JSON value type; the persistence file is
modelled by the outcome of reading it (missing, I/O error, undecodable
bytes, JSON syntax error, or a parsed JSON value); the success of a file
write is an explicit boolean parameter.
-/

namespace TaskServer

/-- A JSON value, as produced by json.loads / consumed by json.dumps.
Numbers are modelled by integers (all numbers this program produces are
integers). Objects model Python dicts: key lookup takes the last binding,
matching how json.loads resolves duplicate keys. -/
inductive JSON where
  | null
  | bool (b : Bool)
  | num (n : Int)
  | str (s : String)
  | arr (elems : List JSON)
  | obj (fields : List (String × JSON))

/-- Python truthiness of a JSON value (bool(x) for a decoded json value):
None, False, 0, empty string, empty list and empty dict are falsy. -/
def truthy : JSON → Bool
  | .null => false
  | .bool b => b
  | .num n => n != 0
  | .str s => s != ""
  | .arr xs => !xs.isEmpty
  | .obj kvs => !kvs.isEmpty

/-- Python truthiness of dict.get(k): a missing key gives None, which is falsy. -/
def truthyOpt : Option JSON → Bool
  | none => false
  | some j => truthy j

/-- data.get(k) on the dict decoded from a JSON object: last binding wins,
matching dict construction by json.loads. -/
def dictGet (kvs : List (String × JSON)) (k : String) : Option JSON :=
  kvs.foldl (fun acc p => if p.1 = k then some p.2 else acc) none

/-- Is the JSON value an object (a Python dict after json.loads)?  The
handler calls data.get, which raises AttributeError on anything else. -/
def isObj : JSON → Bool
  | .obj _ => true
  | _ => false

/-- A task dict as built by TaskManager.create_task: keys id, title,
priority, isDone.  id is the int computed by create_task and isDone the
bool it maintains; title and priority are whatever JSON values the caller
passed (the store does not validate them). -/
structure Task where
  id : Int
  title : JSON
  priority : JSON
  isDone : Bool

/-- The state of the persistence file, as seen by one read attempt:
the file may be absent, unreadable (IOError), readable but not valid
UTF-8 (json.load then raises UnicodeDecodeError), valid text that is not
JSON (json.load raises JSONDecodeError), or it holds a JSON value. -/
inductive RawFile where
  | missing
  | ioError
  | undecodable
  | jsonError
  | jsonContent (j : JSON)

/-- Python exceptions that can escape TaskManager.load. -/
inductive PyErr where
  | unicodeDecodeError

/-- The observable state of a TaskManager: the in-memory task list, the
persistence file contents, and a counter of save invocations (used to
state "no persistence write happens"). -/
structure Store where
  tasks : List Task
  file : RawFile
  writes : Nat

/-- Python max(xs, default=d): the maximum element of xs, or d when xs is
empty (the default is NOT an extra candidate for the maximum). -/
def maxDefault (xs : List Int) (d : Int) : Int :=
  match xs with
  | [] => d
  | x :: rest => rest.foldl max x

/-- json.dumps image of one task dict (value level). -/
def encodeTask (t : Task) : JSON :=
  .obj [("id", .num t.id), ("title", t.title), ("priority", t.priority), ("isDone", .bool t.isDone)]

/-- json.dumps image of the whole collection: a JSON array of task objects. -/
def encodeTasks (ts : List Task) : JSON :=
  .arr (ts.map encodeTask)

/-- Reading one task back from its JSON object form. -/
def decodeTask : JSON → Option Task
  | .obj [("id", .num i), ("title", ti), ("priority", p), ("isDone", .bool d)] =>
      some { id := i, title := ti, priority := p, isDone := d }
  | _ => none

def decodeTaskList : List JSON → Option (List Task)
  | [] => some []
  | j :: js =>
      match decodeTask j, decodeTaskList js with
      | some t, some ts => some (t :: ts)
      | _, _ => none

/-- Reading a task collection back from its JSON array form. -/
def decodeTasks : JSON → Option (List Task)
  | .arr js => decodeTaskList js
  | _ => none

/-- TaskManager.load: if the file exists, json.load it; JSONDecodeError and
IOError are caught and give the empty list; a file readable at the OS level
but not valid UTF-8 makes json.load raise UnicodeDecodeError, which the
except clause does not catch, so it escapes. -/
def TaskManager.load : RawFile → Except PyErr JSON
  | .missing => .ok (.arr [])
  | .ioError => .ok (.arr [])
  | .jsonError => .ok (.arr [])
  | .undecodable => .error .unicodeDecodeError
  | .jsonContent j => .ok j

/-- TaskManager.save: json.dump the collection to the file; on IOError the
exception is swallowed and memory is untouched.  ok says whether the write
succeeded; the attempt is counted either way. -/
def TaskManager.save (s : Store) (ok : Bool) : Store :=
  { s with
    file := if ok then RawFile.jsonContent (encodeTasks s.tasks) else s.file,
    writes := s.writes + 1 }

/-- The task dict built by TaskManager.create_task: id is
max((task["id"] for task in tasks), default=0) + 1, isDone is False. -/
def newTask (ts : List Task) (title priority : JSON) : Task :=
  { id := maxDefault (ts.map Task.id) 0 + 1
    title := title
    priority := priority
    isDone := false }

/-- The collection after create_task appends the new task. -/
def createList (ts : List Task) (title priority : JSON) : List Task :=
  ts ++ [newTask ts title priority]

/-- TaskManager.create_task: build the task, append it, save, return it. -/
def TaskManager.create_task (s : Store) (title priority : JSON) (ok : Bool) :
    Store × Task :=
  (TaskManager.save { s with tasks := createList s.tasks title priority } ok,
   newTask s.tasks title priority)

/-- The loop body of TaskManager.complete_task: scan for the first task
with the given id; if its isDone is false, flip it.  Returns the updated
list, whether a task was found, and whether anything changed. -/
def completeLoop : List Task → Int → List Task × Bool × Bool
  | [], _ => ([], false, false)
  | t :: ts, i =>
      if t.id = i then
        if t.isDone then (t :: ts, true, false)
        else ({ t with isDone := true } :: ts, true, true)
      else
        let r := completeLoop ts i
        (t :: r.1, r.2.1, r.2.2)

/-- The collection after complete_task. -/
def completeList (ts : List Task) (i : Int) : List Task :=
  (completeLoop ts i).1

/-- TaskManager.complete_task: scan; save only when a flag actually
changed; return whether a task with the id was found. -/
def TaskManager.complete_task (s : Store) (i : Int) (ok : Bool) : Store × Bool :=
  match completeLoop s.tasks i with
  | (ts2, found, true) => (TaskManager.save { s with tasks := ts2 } ok, found)
  | (ts2, found, false) => ({ s with tasks := ts2 }, found)

/-- TaskManager.get_all: the live in-memory collection. -/
def TaskManager.get_all (s : Store) : List Task :=
  s.tasks

/-! ## HTTP layer -/

/-- The body of an HTTP response: nothing after the headers, a plain-text
message (`_send_error`), a JSON document (`_send_json_response`), or the
HTML error page that BaseHTTPRequestHandler.send_error produces. -/
inductive RespBody where
  | empty
  | text (s : String)
  | json (j : JSON)
  | errorPage (code : Nat)

structure Response where
  status : Nat
  body : RespBody

/-- The outcome of json.loads on the raw request body bytes: bytes that do
not decode as UTF-8 (json.loads raises UnicodeDecodeError), text that is
not JSON (JSONDecodeError), or a parsed JSON value. -/
inductive BodyIn where
  | badBytes
  | badJson
  | val (j : JSON)

/-- Python str.strip("/") on the character list. -/
def stripSlashes (cs : List Char) : List Char :=
  ((cs.dropWhile (fun c => c = '/')).reverse.dropWhile (fun c => c = '/')).reverse

/-- Python str.split("/"): split on every slash, keeping empty segments;
the accumulator holds the current segment reversed. -/
def splitSlashAux : List Char → List Char → List String
  | [], acc => [String.mk acc.reverse]
  | c :: rest, acc =>
      if c = '/' then String.mk acc.reverse :: splitSlashAux rest []
      else splitSlashAux rest (c :: acc)

/-- self.path.strip("/").split("/") from do_POST. -/
def pathParts (path : String) : List String :=
  splitSlashAux (stripSlashes path.toList) []

def isPyDigit (c : Char) : Bool :=
  '0' ≤ c && c ≤ '9'

def digitVal (c : Char) : Nat :=
  c.toNat - 48

/-- Digits after the first one, allowing single underscores between digits
as Python int() does. -/
def digitsCore : List Char → Nat → Option Nat
  | [], acc => some acc
  | '_' :: c :: rest, acc =>
      if isPyDigit c then digitsCore rest (acc * 10 + digitVal c) else none
  | c :: rest, acc =>
      if isPyDigit c then digitsCore rest (acc * 10 + digitVal c) else none

/-- A nonempty run of digits (with Python underscore grouping). -/
def natPart : List Char → Option Nat
  | [] => none
  | c :: rest => if isPyDigit c then digitsCore rest (digitVal c) else none

/-- ASCII whitespace stripped by Python int(). -/
def isPySpace (c : Char) : Bool :=
  c = ' ' || c = '\t' || c = '\n' || c = '\r' || c = '\x0b' || c = '\x0c'

/-- Python int(s) on a decimal string: optional whitespace, optional sign,
digits with optional single underscores between them; None models a
ValueError. -/
def parsePyInt (s : String) : Option Int :=
  let cs := ((s.toList.dropWhile isPySpace).reverse.dropWhile isPySpace).reverse
  match cs with
  | '+' :: rest => (natPart rest).map (fun n => (n : Int))
  | '-' :: rest => (natPart rest).map (fun n => -(n : Int))
  | rest => (natPart rest).map (fun n => (n : Int))

/-- priority in ("low", "normal", "high"): only equal strings compare
equal to the members of that tuple. -/
def allowedPriority : JSON → Bool
  | .str s => s == "low" || s == "normal" || s == "high"
  | _ => false

/-- TaskHandler._handle_create_task.  none models an unhandled exception
escaping the handler (no response is written): UnicodeDecodeError from
json.loads on undecodable bytes, or AttributeError from data.get when the
parsed body is not a dict. -/
def TaskHandler.handle_create_task (s : Store) (body : BodyIn) (ok : Bool) :
    Option (Response × Store) :=
  match body with
  | .badBytes => none
  | .badJson => some ({ status := 400, body := .text "Invalid JSON" }, s)
  | .val (JSON.obj kvs) =>
      let title := dictGet kvs "title"
      let priority := dictGet kvs "priority"
      if !truthyOpt title || !truthyOpt priority then
        some ({ status := 400, body := .text "Missing title or priority" }, s)
      else if !allowedPriority (priority.getD .null) then
        some ({ status := 400, body := .text "Priority must be low, normal, or high" }, s)
      else
        let r := TaskManager.create_task s (title.getD .null) (priority.getD .null) ok
        some ({ status := 201, body := .json (encodeTask r.2) }, r.1)
  | .val _ => none

/-- TaskHandler._handle_complete_task: parse the id segment with int();
ValueError gives a bare 404; otherwise 200 or 404 by whether the task
exists. -/
def TaskHandler.handle_complete_task (s : Store) (seg : String) (ok : Bool) :
    Response × Store :=
  match parsePyInt seg with
  | none => ({ status := 404, body := .empty }, s)
  | some i =>
      match TaskManager.complete_task s i ok with
      | (s2, true) => ({ status := 200, body := .empty }, s2)
      | (s2, false) => ({ status := 404, body := .empty }, s2)

/-- len(parts) == 3 and parts[0] == "tasks" and parts[2] == "complete". -/
def completeRoute (parts : List String) : Prop :=
  parts.length = 3 ∧ parts.headD "" = "tasks" ∧ parts.getD 2 "" = "complete"

instance (parts : List String) : Decidable (completeRoute parts) := by
  unfold completeRoute; infer_instance

/-- TaskHandler.do_GET: only the exact path "/tasks" is served. -/
def TaskHandler.handle_GET (s : Store) (path : String) : Response × Store :=
  if path = "/tasks" then
    ({ status := 200, body := .json (encodeTasks (TaskManager.get_all s)) }, s)
  else
    ({ status := 404, body := .empty }, s)

/-- TaskHandler.do_POST: route on the stripped, split path. -/
def TaskHandler.handle_POST (s : Store) (path : String) (body : BodyIn) (ok : Bool) :
    Option (Response × Store) :=
  if pathParts path = ["tasks"] then
    TaskHandler.handle_create_task s body ok
  else if completeRoute (pathParts path) then
    some (TaskHandler.handle_complete_task s ((pathParts path).getD 1 "") ok)
  else
    some ({ status := 404, body := .empty }, s)

/-- One request through BaseHTTPRequestHandler dispatch: do_GET and
do_POST exist on TaskHandler; for any other method handle_one_request
finds no do_METHOD attribute and answers 501 Unsupported method with an
HTML error page. -/
def TaskHandler.handleRequest (s : Store) (method path : String) (body : BodyIn)
    (ok : Bool) : Option (Response × Store) :=
  if method = "GET" then some (TaskHandler.handle_GET s path)
  else if method = "POST" then TaskHandler.handle_POST s path body ok
  else some ({ status := 501, body := .errorPage 501 }, s)

/-! ## Derived notions used by the claims -/

/-- The ids 1, 2, ..., n as integers (start, start+1, ...). -/
def seqIds (start : Int) : Nat → List Int
  | 0 => []
  | n + 1 => start :: seqIds (start + 1) n

/-- A sequence of create_task calls, each with its own title, priority and
save outcome. -/
def applyCreates (args : List (JSON × JSON × Bool)) (s : Store) : Store :=
  match args with
  | [] => s
  | (t, p, ok) :: rest => applyCreates rest (TaskManager.create_task s t p ok).1

/-- The data-model invariants of section 3 of the specification: ids are
positive and unique, and titles are truthy (Python non-empty). -/
def wfTasks (ts : List Task) : Prop :=
  (∀ t ∈ ts, 0 < t.id) ∧ (ts.map Task.id).Nodup ∧ (∀ t ∈ ts, truthy t.title = true)

/-- Collections reachable from init by the store operations, where create
receives a caller-validated (truthy) title as every caller in the program
guarantees. -/
inductive Reachable (init : List Task) : List Task → Prop where
  | refl : Reachable init init
  | create {ts : List Task} (title priority : JSON) (ht : truthy title = true)
      (h : Reachable init ts) : Reachable init (createList ts title priority)
  | complete {ts : List Task} (i : Int) (h : Reachable init ts) :
      Reachable init (completeList ts i)

/-! ## Helper lemmas -/

theorem le_foldl_max (xs : List Int) (a : Int) : a ≤ xs.foldl max a := by
  induction xs generalizing a with
  | nil => exact le_refl a
  | cons x xs ih =>
      exact le_trans (le_max_left a x) (ih (max a x))

theorem mem_le_foldl_max (xs : List Int) (a x : Int) (hx : x ∈ xs) :
    x ≤ xs.foldl max a := by
  induction xs generalizing a with
  | nil => cases hx
  | cons y ys ih =>
      rcases List.mem_cons.mp hx with h | h
      · subst h
        exact le_trans (le_max_right a x) (le_foldl_max ys (max a x))
      · exact ih (max a y) h

theorem foldl_max_mem (xs : List Int) (a : Int) :
    xs.foldl max a = a ∨ xs.foldl max a ∈ xs := by
  induction xs generalizing a with
  | nil => exact Or.inl rfl
  | cons y ys ih =>
      rcases ih (max a y) with h | h
      · rcases max_choice a y with hm | hm
        · exact Or.inl (by rw [List.foldl_cons, h, hm])
        · exact Or.inr (by rw [List.foldl_cons, h, hm]; exact List.mem_cons_self y ys)
      · exact Or.inr (List.mem_cons_of_mem y h)

theorem mem_le_maxDefault (xs : List Int) (d x : Int) (hx : x ∈ xs) :
    x ≤ maxDefault xs d := by
  cases xs with
  | nil => cases hx
  | cons y ys =>
      rcases List.mem_cons.mp hx with h | h
      · subst h; exact le_foldl_max ys x
      · exact mem_le_foldl_max ys y x h

theorem maxDefault_mem (xs : List Int) (d : Int) (h : xs ≠ []) :
    maxDefault xs d ∈ xs := by
  cases xs with
  | nil => exact absurd rfl h
  | cons y ys =>
      rcases foldl_max_mem ys y with hm | hm
      · rw [maxDefault, hm]; exact List.mem_cons_self y ys
      · exact List.mem_cons_of_mem y hm

theorem maxDefault_default_irrel (xs : List Int) (d e : Int) (h : xs ≠ []) :
    maxDefault xs d = maxDefault xs e := by
  cases xs with
  | nil => exact absurd rfl h
  | cons y ys => rfl

theorem maxDefault_append_single (xs : List Int) (y d : Int) :
    maxDefault (xs ++ [y]) d = max (maxDefault xs y) y := by
  cases xs with
  | nil => simp [maxDefault]
  | cons x rest =>
      show (rest ++ [y]).foldl max x = max (rest.foldl max x) y
      rw [List.foldl_append]
      rfl

theorem newTask_id_pos (ts : List Task) (title priority : JSON)
    (h : ∀ t ∈ ts, 0 < t.id) : 0 < (newTask ts title priority).id := by
  show 0 < maxDefault (ts.map Task.id) 0 + 1
  cases ts with
  | nil => norm_num [maxDefault]
  | cons t rest =>
      have hmem : maxDefault ((t :: rest).map Task.id) 0 ∈ (t :: rest).map Task.id :=
        maxDefault_mem _ _ (by simp)
      rcases List.mem_map.mp hmem with ⟨u, hu, heq⟩
      have := h u hu
      omega

theorem newTask_id_gt (ts : List Task) (title priority : JSON) (t : Task)
    (ht : t ∈ ts) : t.id < (newTask ts title priority).id := by
  show t.id < maxDefault (ts.map Task.id) 0 + 1
  have : t.id ≤ maxDefault (ts.map Task.id) 0 :=
    mem_le_maxDefault _ _ _ (List.mem_map.mpr ⟨t, ht, rfl⟩)
  omega

/-! completeLoop lemmas -/

theorem completeLoop_not_found (ts : List Task) (i : Int)
    (h : ∀ t ∈ ts, t.id ≠ i) : completeLoop ts i = (ts, false, false) := by
  induction ts with
  | nil => rfl
  | cons t rest ih =>
      have h1 : t.id ≠ i := h t (List.mem_cons_self t rest)
      have h2 : ∀ u ∈ rest, u.id ≠ i := fun u hu => h u (List.mem_cons_of_mem t hu)
      simp [completeLoop, h1, ih h2]

theorem completeLoop_found_iff (ts : List Task) (i : Int) :
    (completeLoop ts i).2.1 = true ↔ ∃ t ∈ ts, t.id = i := by
  induction ts with
  | nil => simp [completeLoop]
  | cons t rest ih =>
      by_cases h : t.id = i
      · cases hd : t.isDone <;> simp [completeLoop, h, hd]
      · simp [completeLoop, h, ih]

theorem completeLoop_map_id (ts : List Task) (i : Int) :
    (completeLoop ts i).1.map Task.id = ts.map Task.id := by
  induction ts with
  | nil => rfl
  | cons t rest ih =>
      by_cases h : t.id = i
      · cases hd : t.isDone <;> simp [completeLoop, h, hd]
      · simp [completeLoop, h, ih]

theorem completeLoop_map_title (ts : List Task) (i : Int) :
    (completeLoop ts i).1.map Task.title = ts.map Task.title := by
  induction ts with
  | nil => rfl
  | cons t rest ih =>
      by_cases h : t.id = i
      · cases hd : t.isDone <;> simp [completeLoop, h, hd]
      · simp [completeLoop, h, ih]

theorem completeLoop_isDone_mono (ts : List Task) (i : Int) :
    List.Forall₂ (fun a b => a.id = b.id ∧ (a.isDone = true → b.isDone = true))
      ts (completeLoop ts i).1 := by
  induction ts with
  | nil => exact List.Forall₂.nil
  | cons t rest ih =>
      by_cases h : t.id = i
      · cases hd : t.isDone
        · simp only [completeLoop, h, hd, if_true, if_false, Bool.false_eq_true]
          exact List.Forall₂.cons ⟨h, fun _ => rfl⟩
            (List.forall₂_same.mpr (fun a _ => ⟨rfl, fun hh => hh⟩))
        · simp only [completeLoop, h, hd, if_true]
          exact List.Forall₂.cons ⟨rfl, fun hh => hh⟩
            (List.forall₂_same.mpr (fun a _ => ⟨rfl, fun hh => hh⟩))
      · simp only [completeLoop, h, if_false]
        exact List.Forall₂.cons ⟨rfl, fun hh => hh⟩ ih

theorem completeLoop_first (pre : List Task) (t : Task) (post : List Task) (i : Int)
    (hpre : ∀ u ∈ pre, u.id ≠ i) (ht : t.id = i) (hnd : t.isDone = false) :
    completeLoop (pre ++ t :: post) i =
      (pre ++ { t with isDone := true } :: post, true, true) := by
  induction pre with
  | nil => simp [completeLoop, ht, hnd]
  | cons u rest ih =>
      have h1 : u.id ≠ i := hpre u (List.mem_cons_self u rest)
      have h2 : ∀ v ∈ rest, v.id ≠ i := fun v hv => hpre v (List.mem_cons_of_mem u hv)
      simp [completeLoop, h1, ih h2]

theorem completeLoop_idem (ts : List Task) (i : Int)
    (h : (completeLoop ts i).2.1 = true) :
    completeLoop (completeLoop ts i).1 i = ((completeLoop ts i).1, true, false) := by
  induction ts with
  | nil => simp [completeLoop] at h
  | cons t rest ih =>
      by_cases hid : t.id = i
      · cases hd : t.isDone
        · simp [completeLoop, hid, hd]
        · simp [completeLoop, hid, hd]
      · have h2 : (completeLoop rest i).2.1 = true := by
          simpa [completeLoop, hid] using h
        simp [completeLoop, hid, ih h2]

/-! decode round-trip -/

theorem decodeTask_encodeTask (t : Task) : decodeTask (encodeTask t) = some t := rfl

theorem decodeTasks_encodeTasks (ts : List Task) :
    decodeTasks (encodeTasks ts) = some ts := by
  show decodeTaskList (ts.map encodeTask) = some ts
  induction ts with
  | nil => rfl
  | cons t rest ih =>
      simp only [List.map_cons, decodeTaskList, decodeTask_encodeTask, ih]

/-! seqIds lemmas -/

theorem seqIds_concat (s : Int) (n : Nat) :
    seqIds s (n + 1) = seqIds s n ++ [s + n] := by
  induction n generalizing s with
  | zero => simp [seqIds]
  | succ m ih =>
      have hel : s + 1 + (m : Int) = s + ((m + 1 : Nat) : Int) := by push_cast; ring
      calc seqIds s (m + 1 + 1) = s :: seqIds (s + 1) (m + 1) := rfl
        _ = s :: (seqIds (s + 1) m ++ [s + 1 + (m : Int)]) := by rw [ih (s + 1)]
        _ = (s :: seqIds (s + 1) m) ++ [s + ((m + 1 : Nat) : Int)] := by rw [hel]; rfl
        _ = seqIds s (m + 1) ++ [s + ((m + 1 : Nat) : Int)] := rfl

theorem seqIds_ne_nil (s : Int) (n : Nat) (h : 0 < n) : seqIds s n ≠ [] := by
  cases n with
  | zero => omega
  | succ m => simp [seqIds]

theorem maxDefault_seqIds (k : Nat) : maxDefault (seqIds 1 k) 0 = (k : Int) := by
  induction k with
  | zero => rfl
  | succ m ih =>
      rw [seqIds_concat, maxDefault_append_single]
      cases m with
      | zero => simp [maxDefault, seqIds]
      | succ p =>
          rw [maxDefault_default_irrel (seqIds 1 (p + 1)) (1 + (p + 1 : Nat)) 0
            (seqIds_ne_nil 1 (p + 1) (by omega)), ih]
          rw [max_eq_right (by push_cast; omega)]
          omega

/-! Bridges between the store operations and the list-level functions -/

theorem complete_task_tasks (s : Store) (i : Int) (ok : Bool) :
    (TaskManager.complete_task s i ok).1.tasks = completeList s.tasks i := by
  unfold TaskManager.complete_task
  rcases h : completeLoop s.tasks i with ⟨ts2, found, changed⟩
  cases changed <;> simp [TaskManager.save, completeList, h]

theorem complete_task_found (s : Store) (i : Int) (ok : Bool) :
    (TaskManager.complete_task s i ok).2 = (completeLoop s.tasks i).2.1 := by
  unfold TaskManager.complete_task
  rcases h : completeLoop s.tasks i with ⟨ts2, found, changed⟩
  cases changed <;> simp [h]

theorem create_task_tasks (s : Store) (title priority : JSON) (ok : Bool) :
    (TaskManager.create_task s title priority ok).1.tasks =
      createList s.tasks title priority := rfl

theorem createList_map_id (ts : List Task) (title priority : JSON) :
    (createList ts title priority).map Task.id =
      ts.map Task.id ++ [maxDefault (ts.map Task.id) 0 + 1] := by
  simp [createList, newTask]

/-! Invariant preservation -/

theorem wf_createList (ts : List Task) (title priority : JSON)
    (h : wfTasks ts) (ht : truthy title = true) :
    wfTasks (createList ts title priority) := by
  obtain ⟨hpos, hnd, htt⟩ := h
  refine ⟨?_, ?_, ?_⟩
  · intro t htm
    rcases List.mem_append.mp htm with hm | hm
    · exact hpos t hm
    · rcases List.mem_singleton.mp hm with rfl
      exact newTask_id_pos ts title priority hpos
  · rw [createList_map_id]
    rw [List.nodup_append]
    refine ⟨hnd, List.nodup_singleton _, ?_⟩
    intro x hx hx1
    rcases List.mem_singleton.mp hx1 with rfl
    rcases List.mem_map.mp hx with ⟨u, hu, hid⟩
    have h1 : u.id < maxDefault (ts.map Task.id) 0 + 1 := newTask_id_gt ts title priority u hu
    omega
  · intro t htm
    rcases List.mem_append.mp htm with hm | hm
    · exact htt t hm
    · rcases List.mem_singleton.mp hm with rfl
      exact ht

theorem wf_completeList (ts : List Task) (i : Int) (h : wfTasks ts) :
    wfTasks (completeList ts i) := by
  obtain ⟨hpos, hnd, htt⟩ := h
  refine ⟨?_, ?_, ?_⟩
  · intro t htm
    have : t.id ∈ (completeList ts i).map Task.id := List.mem_map.mpr ⟨t, htm, rfl⟩
    rw [completeList, completeLoop_map_id] at this
    rcases List.mem_map.mp this with ⟨u, hu, hid⟩
    rw [← hid]
    exact hpos u hu
  · rw [completeList, completeLoop_map_id]
    exact hnd
  · intro t htm
    have : t.title ∈ (completeList ts i).map Task.title := List.mem_map.mpr ⟨t, htm, rfl⟩
    rw [completeList, completeLoop_map_title] at this
    rcases List.mem_map.mp this with ⟨u, hu, hti⟩
    rw [← hti]
    exact htt u hu

/-! Id sequence for iterated creates -/

theorem applyCreates_ids (args : List (JSON × JSON × Bool)) (s : Store) (k : Nat)
    (h : s.tasks.map Task.id = seqIds 1 k) :
    (applyCreates args s).tasks.map Task.id = seqIds 1 (k + args.length) := by
  induction args generalizing s k with
  | nil => simpa using h
  | cons a rest ih =>
      rcases a with ⟨t, ⟨p, ok⟩⟩
      show (applyCreates rest (TaskManager.create_task s t p ok).1).tasks.map Task.id
        = seqIds 1 (k + (rest.length + 1))
      have hmax : maxDefault (s.tasks.map Task.id) 0 = (k : Int) := by
        rw [h]; exact maxDefault_seqIds k
      have hnew : (TaskManager.create_task s t p ok).1.tasks.map Task.id
          = seqIds 1 (k + 1) := by
        rw [create_task_tasks, createList_map_id, h, maxDefault_seqIds, seqIds_concat]
        congr 1
        simp only [List.cons.injEq, and_true]
        omega
      have := ih (TaskManager.create_task s t p ok).1 (k + 1) hnew
      rw [this]
      congr 1
      omega

/-! ## Claim theorems -/

/-- C1: create_task assigns id (maximum existing id, or 0 if the collection
is empty) + 1: on an empty collection the new id is 1; the new id is
strictly greater than every existing id; on a nonempty collection it is
exactly some existing id plus 1 (the maximum); and every sequence of
create calls starting from an empty collection assigns exactly the ids
1, 2, ..., N, regardless of the title and priority arguments and of
whether each save succeeds. -/
theorem c1_id_assignment :
    (∀ (s : Store) (title priority : JSON) (ok : Bool),
        (s.tasks = [] → (TaskManager.create_task s title priority ok).2.id = 1)
        ∧ (∀ t ∈ s.tasks, t.id < (TaskManager.create_task s title priority ok).2.id)
        ∧ (s.tasks ≠ [] → ∃ t ∈ s.tasks,
            (TaskManager.create_task s title priority ok).2.id = t.id + 1))
    ∧ (∀ (args : List (JSON × JSON × Bool)) (f : RawFile) (w : Nat),
        (applyCreates args ⟨[], f, w⟩).tasks.map Task.id = seqIds 1 args.length) := by
  constructor
  · intro s title priority ok
    refine ⟨?_, ?_, ?_⟩
    · intro h
      show maxDefault (s.tasks.map Task.id) 0 + 1 = 1
      rw [h]
      rfl
    · intro t ht
      exact newTask_id_gt s.tasks title priority t ht
    · intro h
      have hne : s.tasks.map Task.id ≠ [] := by
        intro hc
        exact h (List.map_eq_nil_iff.mp hc)
      have hmem := maxDefault_mem (s.tasks.map Task.id) 0 hne
      rcases List.mem_map.mp hmem with ⟨u, hu, hid⟩
      refine ⟨u, hu, ?_⟩
      show maxDefault (s.tasks.map Task.id) 0 + 1 = u.id + 1
      rw [hid]
  · intro args f w
    have h := applyCreates_ids args ⟨[], f, w⟩ 0 rfl
    simpa using h

/-- C1 witness: from the empty store the first created task has id 1, and
from a store whose single task has id 5 the created task gets id 5 + 1. -/
theorem c1_id_assignment_witness :
    (TaskManager.create_task ⟨[], .missing, 0⟩ (.str "a") (.str "low") true).2.id = 1
    ∧ (∃ t ∈ ([⟨5, .str "b", .str "low", false⟩] : List Task),
        (TaskManager.create_task ⟨[⟨5, .str "b", .str "low", false⟩], .missing, 0⟩
          (.str "c") (.str "high") false).2.id = t.id + 1) :=
  ⟨(c1_id_assignment.1 ⟨[], .missing, 0⟩ (.str "a") (.str "low") true).1 rfl,
   (c1_id_assignment.1 ⟨[⟨5, .str "b", .str "low", false⟩], .missing, 0⟩
      (.str "c") (.str "high") false).2.2 (by simp)⟩

/-- C2 counterexample: in a store whose collection holds two tasks with
id 1, the first already done and the second not done, a task with the
given id and isDone = false exists, yet complete_task returns true while
leaving the whole store unchanged (no flag is set and no write happens),
contradicting the claim as stated for every store state. -/
theorem c2_counterexample :
    (∃ t ∈ ([⟨1, JSON.str "a", JSON.str "low", true⟩,
             ⟨1, JSON.str "b", JSON.str "low", false⟩] : List Task),
        t.id = 1 ∧ t.isDone = false)
    ∧ TaskManager.complete_task
        ⟨[⟨1, .str "a", .str "low", true⟩, ⟨1, .str "b", .str "low", false⟩], .missing, 0⟩ 1 true
      = (⟨[⟨1, .str "a", .str "low", true⟩, ⟨1, .str "b", .str "low", false⟩], .missing, 0⟩, true) := by
  refine ⟨⟨⟨1, JSON.str "b", JSON.str "low", false⟩, by simp, rfl, rfl⟩, rfl⟩

/-- C2 amended: complete_task returns true iff some task in the collection
has the given id; and when the FIRST task in the collection with that id
has isDone = false, the operation flips that flag, increments the write
count, and (when the write succeeds) stores the full updated collection in
the persistence file before returning. -/
theorem c2_amended (s : Store) (i : Int) (ok : Bool) :
    ((TaskManager.complete_task s i ok).2 = true ↔ ∃ t ∈ s.tasks, t.id = i)
    ∧ (∀ (pre : List Task) (t : Task) (post : List Task),
        s.tasks = pre ++ t :: post → (∀ u ∈ pre, u.id ≠ i) → t.id = i →
        t.isDone = false →
        TaskManager.complete_task s i ok =
          ({ tasks := pre ++ { t with isDone := true } :: post,
             file := if ok then
                 RawFile.jsonContent (encodeTasks (pre ++ { t with isDone := true } :: post))
               else s.file,
             writes := s.writes + 1 }, true)) := by
  constructor
  · rw [complete_task_found]
    exact completeLoop_found_iff s.tasks i
  · intro pre t post heq hpre hti hnd
    unfold TaskManager.complete_task
    rw [heq, completeLoop_first pre t post i hpre hti hnd]
    simp [TaskManager.save]

/-- C2 witness: completing the single not-done task with id 1 returns
true, sets its flag, and stores the updated collection in the file. -/
theorem c2_amended_witness :
    ((TaskManager.complete_task ⟨[⟨1, .str "a", .str "low", false⟩], .missing, 0⟩ 1 true).2 = true
      ↔ ∃ t ∈ ([⟨1, JSON.str "a", JSON.str "low", false⟩] : List Task), t.id = 1)
    ∧ TaskManager.complete_task ⟨[⟨1, .str "a", .str "low", false⟩], .missing, 0⟩ 1 true
      = (⟨[⟨1, .str "a", .str "low", true⟩],
          .jsonContent (encodeTasks [⟨1, .str "a", .str "low", true⟩]), 1⟩, true) := by
  constructor
  · exact (c2_amended ⟨[⟨1, .str "a", .str "low", false⟩], .missing, 0⟩ 1 true).1
  · have h := (c2_amended ⟨[⟨1, .str "a", .str "low", false⟩], .missing, 0⟩ 1 true).2
      [] ⟨1, .str "a", .str "low", false⟩ [] rfl (by simp) rfl rfl
    simpa using h

/-- C3: complete is idempotent at the observable-state level: when some
task has the given id, a second complete_task call returns true and
changes nothing at all (collection, file and write count); and in general
a task whose isDone is true keeps it true (flags only go false to true). -/
theorem c3_complete_idempotent :
    (∀ (s : Store) (i : Int) (ok1 ok2 : Bool),
        (∃ t ∈ s.tasks, t.id = i) →
        TaskManager.complete_task (TaskManager.complete_task s i ok1).1 i ok2 =
          ((TaskManager.complete_task s i ok1).1, true))
    ∧ (∀ (s : Store) (i : Int) (ok : Bool),
        List.Forall₂ (fun a b => a.id = b.id ∧ (a.isDone = true → b.isDone = true))
          s.tasks ((TaskManager.complete_task s i ok).1).tasks) := by
  constructor
  · intro s i ok1 ok2 h
    have hfound : (completeLoop s.tasks i).2.1 = true :=
      (completeLoop_found_iff s.tasks i).mpr h
    have hidem := completeLoop_idem s.tasks i hfound
    have h1 : (TaskManager.complete_task s i ok1).1.tasks = (completeLoop s.tasks i).1 :=
      complete_task_tasks s i ok1
    have h2 : completeLoop (TaskManager.complete_task s i ok1).1.tasks i
        = ((TaskManager.complete_task s i ok1).1.tasks, true, false) := by
      rw [h1, hidem]
    have key : ∀ s1 : Store, completeLoop s1.tasks i = (s1.tasks, true, false) →
        TaskManager.complete_task s1 i ok2 = (s1, true) := by
      intro s1 hc
      unfold TaskManager.complete_task
      rw [hc]
    exact key (TaskManager.complete_task s i ok1).1 h2
  · intro s i ok
    rw [complete_task_tasks]
    exact completeLoop_isDone_mono s.tasks i

/-- C3 witness: after completing the task with id 1, completing it again
returns true and leaves the store exactly as it was. -/
theorem c3_complete_idempotent_witness :
    TaskManager.complete_task
        (TaskManager.complete_task ⟨[⟨1, .str "a", .str "low", false⟩], .missing, 0⟩ 1 true).1 1 true
      = ((TaskManager.complete_task ⟨[⟨1, .str "a", .str "low", false⟩], .missing, 0⟩ 1 true).1, true) :=
  c3_complete_idempotent.1 ⟨[⟨1, .str "a", .str "low", false⟩], .missing, 0⟩ 1 true true
    ⟨⟨1, JSON.str "a", JSON.str "low", false⟩, by simp, rfl⟩

/-- C4: when no task in the collection has the given id, complete_task
returns false and leaves the whole store (collection, file, write count)
unchanged. -/
theorem c4_complete_absent (s : Store) (i : Int) (ok : Bool)
    (h : ∀ t ∈ s.tasks, t.id ≠ i) :
    TaskManager.complete_task s i ok = (s, false) := by
  unfold TaskManager.complete_task
  rw [completeLoop_not_found s.tasks i h]

/-- C4 witness: completing id 2 in a store whose only task has id 1. -/
theorem c4_complete_absent_witness :
    (∀ t ∈ ([⟨1, JSON.str "a", JSON.str "low", false⟩] : List Task), t.id ≠ (2 : Int))
    ∧ TaskManager.complete_task ⟨[⟨1, .str "a", .str "low", false⟩], .missing, 0⟩ 2 true
      = (⟨[⟨1, .str "a", .str "low", false⟩], .missing, 0⟩, false) :=
  ⟨by decide,
   c4_complete_absent ⟨[⟨1, .str "a", .str "low", false⟩], .missing, 0⟩ 2 true (by decide)⟩

/-- C5: round-trip: after a successful save, reading the file back yields
exactly the JSON image of the collection, and that image decodes to a
collection equal to the original: same ids, titles, priorities, done
flags, and order. -/
theorem c5_roundtrip (s : Store) :
    TaskManager.load (TaskManager.save s true).file = Except.ok (encodeTasks s.tasks)
    ∧ decodeTasks (encodeTasks s.tasks) = some s.tasks :=
  ⟨rfl, decodeTasks_encodeTasks s.tasks⟩

/-- C6 (code bug): load yields the empty collection for a missing file,
an unreadable file (IOError) and JSON-syntax errors, and a failed save
returns normally leaving memory and file as they were — but a file whose
bytes are not valid UTF-8 is unparsable content on which json.load raises
UnicodeDecodeError, which the except clause (json.JSONDecodeError,
IOError) does not catch, so load raises instead of yielding the empty
collection. -/
theorem c6_persistence_errors :
    TaskManager.load RawFile.missing = Except.ok (encodeTasks [])
    ∧ TaskManager.load RawFile.ioError = Except.ok (encodeTasks [])
    ∧ TaskManager.load RawFile.jsonError = Except.ok (encodeTasks [])
    ∧ TaskManager.load RawFile.undecodable = Except.error PyErr.unicodeDecodeError
    ∧ (∀ s : Store, (TaskManager.save s false).tasks = s.tasks
        ∧ (TaskManager.save s false).file = s.file) :=
  ⟨rfl, rfl, rfl, rfl, fun _ => ⟨rfl, rfl⟩⟩

/-- C7 counterexample: a POST /tasks body that parses as the JSON value 5
(not an object) has no title field, yet the handler does not answer 400
"Missing title or priority": data.get raises AttributeError, the request
dies with no response (modelled as none). -/
theorem c7_counterexample :
    TaskHandler.handleRequest ⟨[], .missing, 0⟩ "POST" "/tasks" (.val (.num 5)) true = none
    ∧ (none : Option (Response × Store))
        ≠ some ({ status := 400, body := .text "Missing title or priority" },
            ⟨[], .missing, 0⟩) :=
  ⟨rfl, by simp⟩

/-- C7 amended: for POST /tasks, a body raising JSONDecodeError yields
400 "Invalid JSON" before any field check; a body that parses to a JSON
OBJECT is then checked in order (absent or falsy title or priority yields
400 "Missing title or priority"; a priority outside low/normal/high
yields 400 "Priority must be low, normal, or high"; otherwise the task is
created and returned with 201); but a body of non-UTF-8 bytes or a body
parsing to a non-object JSON value makes the handler raise an unhandled
exception instead of any 400 response. -/
theorem c7_amended (s : Store) (ok : Bool) :
    (TaskHandler.handleRequest s "POST" "/tasks" .badJson ok
        = some ({ status := 400, body := .text "Invalid JSON" }, s))
    ∧ (TaskHandler.handleRequest s "POST" "/tasks" .badBytes ok = none)
    ∧ (∀ j : JSON, isObj j = false →
        TaskHandler.handleRequest s "POST" "/tasks" (.val j) ok = none)
    ∧ (∀ kvs : List (String × JSON),
        (truthyOpt (dictGet kvs "title") = false ∨ truthyOpt (dictGet kvs "priority") = false →
          TaskHandler.handleRequest s "POST" "/tasks" (.val (.obj kvs)) ok
            = some ({ status := 400, body := .text "Missing title or priority" }, s))
        ∧ (truthyOpt (dictGet kvs "title") = true → truthyOpt (dictGet kvs "priority") = true →
            allowedPriority ((dictGet kvs "priority").getD .null) = false →
          TaskHandler.handleRequest s "POST" "/tasks" (.val (.obj kvs)) ok
            = some ({ status := 400, body := .text "Priority must be low, normal, or high" }, s))
        ∧ (truthyOpt (dictGet kvs "title") = true → truthyOpt (dictGet kvs "priority") = true →
            allowedPriority ((dictGet kvs "priority").getD .null) = true →
          TaskHandler.handleRequest s "POST" "/tasks" (.val (.obj kvs)) ok
            = some ({ status := 201, body := .json (encodeTask (TaskManager.create_task s ((dictGet kvs "title").getD .null) ((dictGet kvs "priority").getD .null) ok).2) },
              (TaskManager.create_task s ((dictGet kvs "title").getD .null) ((dictGet kvs "priority").getD .null) ok).1))) := by
  have hred : ∀ b, TaskHandler.handleRequest s "POST" "/tasks" b ok
      = TaskHandler.handle_create_task s b ok := fun b => rfl
  refine ⟨rfl, rfl, ?_, ?_⟩
  · intro j hj
    rw [hred]
    cases j with
    | obj kvs => simp [isObj] at hj
    | null => rfl
    | bool b => rfl
    | num n => rfl
    | str t => rfl
    | arr xs => rfl
  · intro kvs
    refine ⟨?_, ?_, ?_⟩
    · intro h
      rw [hred]
      rcases h with h | h <;> simp [TaskHandler.handle_create_task, h]
    · intro h1 h2 h3
      rw [hred]
      simp [TaskHandler.handle_create_task, h1, h2, h3]
    · intro h1 h2 h3
      rw [hred]
      simp [TaskHandler.handle_create_task, h1, h2, h3]

/-- C7 witness: the three 400 branches, the 201 branch, and the
non-object crash, each at a concrete request. -/
theorem c7_amended_witness :
    (TaskHandler.handleRequest ⟨[], .missing, 0⟩ "POST" "/tasks" .badJson true
        = some ({ status := 400, body := .text "Invalid JSON" }, ⟨[], .missing, 0⟩))
    ∧ (TaskHandler.handleRequest ⟨[], .missing, 0⟩ "POST" "/tasks" (.val (.num 5)) true = none)
    ∧ (TaskHandler.handleRequest ⟨[], .missing, 0⟩ "POST" "/tasks"
        (.val (.obj [("title", .str ""), ("priority", .str "low")])) true
        = some ({ status := 400, body := .text "Missing title or priority" }, ⟨[], .missing, 0⟩))
    ∧ (TaskHandler.handleRequest ⟨[], .missing, 0⟩ "POST" "/tasks"
        (.val (.obj [("title", .str "X"), ("priority", .str "urgent")])) true
        = some ({ status := 400, body := .text "Priority must be low, normal, or high" },
            ⟨[], .missing, 0⟩))
    ∧ (TaskHandler.handleRequest ⟨[], .missing, 0⟩ "POST" "/tasks"
        (.val (.obj [("title", .str "Buy milk"), ("priority", .str "low")])) true
        = some ({ status := 201, body := .json (encodeTask (TaskManager.create_task ⟨[], .missing, 0⟩ (.str "Buy milk") (.str "low") true).2) },
          (TaskManager.create_task ⟨[], .missing, 0⟩ (.str "Buy milk") (.str "low") true).1)) :=
  ⟨(c7_amended ⟨[], .missing, 0⟩ true).1,
   (c7_amended ⟨[], .missing, 0⟩ true).2.2.1 (.num 5) rfl,
   ((c7_amended ⟨[], .missing, 0⟩ true).2.2.2
      [("title", .str ""), ("priority", .str "low")]).1 (Or.inl rfl),
   ((c7_amended ⟨[], .missing, 0⟩ true).2.2.2
      [("title", .str "X"), ("priority", .str "urgent")]).2.1 rfl rfl rfl,
   ((c7_amended ⟨[], .missing, 0⟩ true).2.2.2
      [("title", .str "Buy milk"), ("priority", .str "low")]).2.2 rfl rfl rfl⟩

/-- C8: a POST whose path splits as tasks/(segment)/complete with a
segment that int() rejects is answered 404 with an empty body and the
store is returned unchanged (the collection is never consulted). -/
theorem c8_nonint_id_404 (s : Store) (path seg : String) (body : BodyIn) (ok : Bool)
    (hp : pathParts path = ["tasks", seg, "complete"])
    (hs : parsePyInt seg = none) :
    TaskHandler.handleRequest s "POST" path body ok
      = some ({ status := 404, body := .empty }, s) := by
  have h1 : TaskHandler.handleRequest s "POST" path body ok
      = TaskHandler.handle_POST s path body ok := rfl
  rw [h1]
  unfold TaskHandler.handle_POST
  rw [hp]
  rw [if_neg (by simp)]
  rw [if_pos (show completeRoute ["tasks", seg, "complete"] from ⟨rfl, rfl, rfl⟩)]
  show some (TaskHandler.handle_complete_task s seg ok) = _
  unfold TaskHandler.handle_complete_task
  rw [hs]

/-- C8 witness: POST /tasks/abc/complete is answered 404 and the store is
unchanged. -/
theorem c8_nonint_id_404_witness :
    pathParts "/tasks/abc/complete" = ["tasks", "abc", "complete"]
    ∧ parsePyInt "abc" = none
    ∧ TaskHandler.handleRequest ⟨[], .missing, 0⟩ "POST" "/tasks/abc/complete" .badJson true
        = some ({ status := 404, body := .empty }, ⟨[], .missing, 0⟩) :=
  ⟨by decide, rfl,
   c8_nonint_id_404 ⟨[], .missing, 0⟩ "/tasks/abc/complete" "abc" .badJson true (by decide) rfl⟩

/-- C9 counterexample: a request with method DELETE (neither do_GET nor
do_POST exists for it) is answered 501 Unsupported method by
BaseHTTPRequestHandler, not 404 as the claim states. -/
theorem c9_counterexample :
    TaskHandler.handleRequest ⟨[], .missing, 0⟩ "DELETE" "/tasks" .badJson true
      = some ({ status := 501, body := .errorPage 501 }, ⟨[], .missing, 0⟩)
    ∧ (501 : Nat) ≠ 404 :=
  ⟨rfl, by decide⟩

/-- C9 amended: a GET whose path is not exactly /tasks, and a POST whose
split path is neither tasks nor tasks/(segment)/complete, are answered
404 with the store unchanged; a request with any method other than GET or
POST is answered 501 Unsupported method (http.server dispatch), also with
the store unchanged. -/
theorem c9_amended :
    (∀ (s : Store) (path : String) (body : BodyIn) (ok : Bool), path ≠ "/tasks" →
        TaskHandler.handleRequest s "GET" path body ok
          = some ({ status := 404, body := .empty }, s))
    ∧ (∀ (s : Store) (path : String) (body : BodyIn) (ok : Bool),
        pathParts path ≠ ["tasks"] → ¬ completeRoute (pathParts path) →
        TaskHandler.handleRequest s "POST" path body ok
          = some ({ status := 404, body := .empty }, s))
    ∧ (∀ (s : Store) (method path : String) (body : BodyIn) (ok : Bool),
        method ≠ "GET" → method ≠ "POST" →
        TaskHandler.handleRequest s method path body ok
          = some ({ status := 501, body := .errorPage 501 }, s)) := by
  refine ⟨?_, ?_, ?_⟩
  · intro s path body ok h
    have h1 : TaskHandler.handleRequest s "GET" path body ok
        = some (TaskHandler.handle_GET s path) := rfl
    rw [h1]
    unfold TaskHandler.handle_GET
    rw [if_neg h]
  · intro s path body ok h1 h2
    have hr : TaskHandler.handleRequest s "POST" path body ok
        = TaskHandler.handle_POST s path body ok := rfl
    rw [hr]
    unfold TaskHandler.handle_POST
    rw [if_neg h1, if_neg h2]
  · intro s method path body ok h1 h2
    unfold TaskHandler.handleRequest
    rw [if_neg h1, if_neg h2]

/-- C9 witness: GET /nope is 404, POST /x is 404, PUT /tasks is 501, all
leaving the store unchanged. -/
theorem c9_amended_witness :
    TaskHandler.handleRequest ⟨[], .missing, 0⟩ "GET" "/nope" .badJson true
      = some ({ status := 404, body := .empty }, ⟨[], .missing, 0⟩)
    ∧ TaskHandler.handleRequest ⟨[], .missing, 0⟩ "POST" "/x" .badJson true
      = some ({ status := 404, body := .empty }, ⟨[], .missing, 0⟩)
    ∧ TaskHandler.handleRequest ⟨[], .missing, 0⟩ "PUT" "/tasks" .badJson true
      = some ({ status := 501, body := .errorPage 501 }, ⟨[], .missing, 0⟩) :=
  ⟨c9_amended.1 ⟨[], .missing, 0⟩ "/nope" .badJson true (by decide),
   c9_amended.2.1 ⟨[], .missing, 0⟩ "/x" .badJson true (by decide) (by decide),
   c9_amended.2.2 ⟨[], .missing, 0⟩ "PUT" "/tasks" .badJson true (by decide) (by decide)⟩

/-- C10: load performs no shape validation beyond JSON parsing: whatever
JSON value the file holds becomes the in-memory collection verbatim; and
the data-model invariants (positive unique ids, truthy titles) hold
exactly for collections built by the store's own create (with
caller-validated title) and complete operations from a well-formed
starting state. -/
theorem c10_load_verbatim_and_invariants :
    (∀ j : JSON, TaskManager.load (RawFile.jsonContent j) = Except.ok j)
    ∧ (∀ (init ts : List Task), wfTasks init → Reachable init ts → wfTasks ts) := by
  constructor
  · intro j
    rfl
  · intro init ts hwf hr
    induction hr with
    | refl => exact hwf
    | create title priority ht h ih => exact wf_createList _ title priority ih ht
    | complete i h ih => exact wf_completeList _ i ih

/-- C10 witness: the empty collection is well formed and the collection
obtained from it by one validated create is still well formed. -/
theorem c10_load_verbatim_and_invariants_witness :
    wfTasks (createList [] (.str "a") (.str "low")) :=
  c10_load_verbatim_and_invariants.2 [] (createList [] (.str "a") (.str "low"))
    ⟨by simp, by simp, by simp⟩
    (Reachable.create (.str "a") (.str "low") rfl Reachable.refl)

end TaskServer
